import Mathlib

/-!
Verification of the libffi Rust binding (crate root src/src/lib.rs).

The crate root declares the four-layer layout: the raw layer, a glob
re-export of the libffi-sys crate, and the high, middle and low modules.
The bodies of high, middle and low are not present in the source tree,
so the operations of those layers (call-interface preparation,
invocation, value marshalling, closure trampolines and their lifecycle)
are modelled from the specification; each such definition's doc comment
says which missing piece it models.  The raw re-export is embedded from
the source itself.
-/

namespace LibFFI

/-- A Value Cell: an untyped, appropriately sized storage slot holding the
bytes of one argument or return value passed across the foreign boundary.
Modelled from the spec: the Value Cell of the data model (missing middle
module). -/
abbrev ValueCell := List Nat

/-- Little-endian encoding of a natural number's bit pattern into `w` bytes.
Modelled from the spec: the marshalling primitive that writes a host value
into a Value Cell (missing middle module). -/
def toBytes : Nat → Nat → List Nat
  | _, 0 => []
  | n, w + 1 => n % 256 :: toBytes (n / 256) w

/-- Little-endian decoding of a byte list back into a bit pattern.
Modelled from the spec: the marshalling primitive that reads a host value
out of a Value Cell (missing middle module). -/
def fromBytes : List Nat → Nat
  | [] => 0
  | b :: bs => b + 256 * fromBytes bs

/-- Primitive type descriptors of the descriptor catalog: integers of 1, 2,
4 or 8 bytes (signed or unsigned), the two floating-point widths, and the
pointer type.  Modelled from the spec: "integer of N bytes, floating point,
pointer" (missing low module). -/
inductive PrimDesc
  | uint8 | sint8 | uint16 | sint16 | uint32 | sint32 | uint64 | sint64
  | float32 | float64 | pointer

/-- Byte width of a primitive descriptor (pointers are 8 bytes on the
modelled platform). -/
def byteWidth : PrimDesc → Nat
  | PrimDesc.uint8 => 1
  | PrimDesc.sint8 => 1
  | PrimDesc.uint16 => 2
  | PrimDesc.sint16 => 2
  | PrimDesc.uint32 => 4
  | PrimDesc.sint32 => 4
  | PrimDesc.uint64 => 8
  | PrimDesc.sint64 => 8
  | PrimDesc.float32 => 4
  | PrimDesc.float64 => 8
  | PrimDesc.pointer => 8

/-- A Type Descriptor: a primitive, or an aggregate owning its element
descriptors.  Modelled from the spec: the Type Descriptor of the data
model (missing low module). -/
inductive TypeDesc
  | prim : PrimDesc → TypeDesc
  | agg : List TypeDesc → TypeDesc

mutual

/-- A descriptor is well formed when every aggregate it contains is
nonempty.  Modelled from the spec: a "malformed aggregate" is what the
descriptor catalog rejects (missing low module). -/
def wellFormed : TypeDesc → Bool
  | TypeDesc.prim _ => true
  | TypeDesc.agg es => !es.isEmpty && allWF es

/-- Well-formedness of a list of element descriptors. -/
def allWF : List TypeDesc → Bool
  | [] => true
  | e :: es => wellFormed e && allWF es

end

/-- An ABI tag: the calling convention a signature targets. -/
abbrev Abi := Nat

/-- A Call Signature: an ordered sequence of argument descriptors, one
return descriptor and an ABI tag.  Modelled from the spec: the Call
Signature of the data model (missing middle module). -/
structure Signature where
  args : List TypeDesc
  ret : TypeDesc
  abi : Abi

/-- The descriptor catalog, an external collaborator: it knows which ABI
tags the current platform supports.  Modelled from the spec: the catalog
is consumed as a pre-validated black box (missing low module). -/
structure Catalog where
  abiSupported : Abi → Bool

/-- A signature is well formed when all its descriptors are. -/
def sigWellFormed (sig : Signature) : Bool :=
  allWF sig.args && wellFormed sig.ret

/-- The catalog rejects a signature exactly when its ABI tag is unsupported
on this platform or some aggregate in it is malformed.  Modelled from the
spec: the failure condition of `prepare` (missing low module). -/
def rejects (cat : Catalog) (sig : Signature) : Bool :=
  !cat.abiSupported sig.abi || !sigWellFormed sig

/-- Errors surfaced at construction time. -/
inductive FfiError
  | UnsupportedSignature

/-- A Call Interface: the compiled fixed-layout plan derived from a
signature.  Modelled from the spec: the Call Interface of the data model
(missing middle module). -/
structure CallInterface where
  sig : Signature

/-- Preparing a Call Interface from a signature: fails with
`UnsupportedSignature` exactly when the catalog rejects the signature,
succeeds otherwise.  Modelled from the spec: `prepare(signature) ->
CallInterface | Error` (missing low module). -/
def prepare (cat : Catalog) (sig : Signature) : Except FfiError CallInterface :=
  if rejects cat sig then Except.error FfiError.UnsupportedSignature
  else Except.ok ⟨sig⟩

/-- Invoking a function through a compiled Call Interface with a list of
argument cells: the assembled call applies the target to the cells and
returns the result cell, with no validation.  Modelled from the spec:
`invoke(interface, function_pointer, argument_cells) -> return_cell`
(missing low module). -/
def invoke (ci : CallInterface) (fn : List ValueCell → ValueCell)
    (args : List ValueCell) : ValueCell :=
  fn args

/-- Marshal a host value (its bit pattern) into a Value Cell sized per the
descriptor.  Modelled from the spec: the argument/result marshalling
primitive of the Managed Assembly Layer (missing middle module). -/
def marshal (d : PrimDesc) (bits : Nat) : ValueCell :=
  toBytes bits (byteWidth d)

/-- Unmarshal a Value Cell back into a host value per the descriptor.
Modelled from the spec: the inverse marshalling primitive (missing middle
module). -/
def unmarshal (d : PrimDesc) (cell : ValueCell) : Nat :=
  fromBytes (cell.take (byteWidth d))

/-- The function that returns its i-th argument cell unchanged. -/
def projFn (i : Nat) : List ValueCell → ValueCell :=
  fun args => args.getD i []

/-- The two-argument `(uint64, uint64) -> uint64` signature of the crate
root's example, with the default ABI tag 0. -/
def u64PairSig : Signature :=
  ⟨[TypeDesc.prim PrimDesc.uint64, TypeDesc.prim PrimDesc.uint64],
   TypeDesc.prim PrimDesc.uint64, 0⟩

mutual

/-- Byte width of a Type Descriptor: primitives per their width, an
aggregate the sum of its elements' widths.  Modelled from the spec: a
Value Cell is an "appropriately-sized" storage location per descriptor
(missing middle module). -/
def tdWidth : TypeDesc → Nat
  | TypeDesc.prim p => byteWidth p
  | TypeDesc.agg es => tdWidthList es

/-- Total byte width of a list of element descriptors. -/
def tdWidthList : List TypeDesc → Nat
  | [] => 0
  | e :: es => tdWidth e + tdWidthList es

end

/-- Marshal a host value (its bit pattern) into a Value Cell sized per an
arbitrary Type Descriptor.  Modelled from the spec: marshalling "given
host values, produce Value Cells sized per a Type Descriptor" (missing
middle module). -/
def tdMarshal (d : TypeDesc) (bits : Nat) : ValueCell :=
  toBytes bits (tdWidth d)

/-- Unmarshal a Value Cell back into a host value per an arbitrary Type
Descriptor.  Modelled from the spec: the inverse marshalling primitive
(missing middle module). -/
def tdUnmarshal (d : TypeDesc) (cell : ValueCell) : Nat :=
  fromBytes (cell.take (tdWidth d))

/-- A Closure: a Call Interface (carrying the call signature it was built
from) paired with the captured managed callable, which takes one host
value per argument descriptor and yields the host result value.  Modelled
from the spec: the Closure of the data model, pairing interface,
trampoline and captured callable (missing high and middle modules). -/
structure Closure where
  iface : CallInterface
  f : List Nat → Nat

/-- Trampoline dispatch, driven by the closure's signature: unmarshal each
incoming argument cell per the corresponding argument descriptor, run the
captured callable, marshal the result back per the return descriptor.
Modelled from the spec: the trampoline forwards incoming foreign calls
into the managed closure and marshals the result back into the foreign
calling convention (missing high module). -/
def dispatch (sig : Signature) (f : List Nat → Nat) (cells : List ValueCell) : ValueCell :=
  tdMarshal sig.ret (f (List.zipWith tdUnmarshal sig.args cells))

/-- Invoking the exposed code pointer through an independent call path
using the same signature: the foreign caller marshals each argument value
into a cell per that signature's argument descriptors, the call goes
through the Call Interface into the trampoline, and the result cell is
unmarshalled per the return descriptor.  Modelled from the spec:
invocation of `closure.code_ptr()` from foreign code (missing high
module). -/
def codePtrCall (c : Closure) (vals : List Nat) : Nat :=
  tdUnmarshal c.iface.sig.ret
    (invoke c.iface (dispatch c.iface.sig c.f)
      (List.zipWith tdMarshal c.iface.sig.args vals))

/-- A managed callable capturing mutable state of type σ: each run takes
the current state and a u64 argument and yields the new state and a u64
result.  Modelled from the spec: a closure capturing mutable local state
(missing high module). -/
structure MutCallable (σ : Type) where
  run : σ → Nat → σ × Nat

/-- Direct managed N-fold invocation: fold the callable over the argument
list, threading the captured state.  Invocations are sequential, each
happens-before the next. -/
def directRunN {σ : Type} (f : MutCallable σ) (s : σ) (ys : List Nat) : σ :=
  ys.foldl (fun t y => (f.run t y).1) s

/-- One invocation through the raw exposed pointer: the trampoline
unmarshals the argument cell, runs the captured callable against the
captured state, and marshals the result back.  Modelled from the spec:
trampoline dispatch (missing high module). -/
def trampCall {σ : Type} (f : MutCallable σ) (s : σ) (cell : ValueCell) :
    σ × ValueCell :=
  ((f.run s (fromBytes cell)).1, toBytes ((f.run s (fromBytes cell)).2 % 2 ^ 64) 8)

/-- N-fold invocation through the raw pointer: each call marshals its u64
argument into a cell and goes through the trampoline; calls are
sequential since invocation blocks the caller. -/
def trampRunN {σ : Type} (f : MutCallable σ) (s : σ) (ys : List Nat) : σ :=
  ys.foldl (fun t y => (trampCall f t (toBytes y 8)).1) s

/-- Closure lifecycle states.  Modelled from the spec: the per-Closure
state machine Unbuilt, Built, Active, Released (missing middle module). -/
inductive CState
  | Unbuilt | Built | Active | Released

/-- Events on the trampoline's executable memory. -/
inductive MemEvent
  | alloc | free
deriving DecidableEq

/-- One lifecycle transition, labelled with the trampoline memory events
it performs: build compiles the interface, activate installs the
trampoline (allocating its executable memory), release frees that memory.
Modelled from the spec: the state machine's transitions (missing middle
module). -/
inductive CStep : CState → List MemEvent → CState → Prop
  | build : CStep CState.Unbuilt [] CState.Built
  | activate : CStep CState.Built [MemEvent.alloc] CState.Active
  | release : CStep CState.Active [MemEvent.free] CState.Released

/-- A sequence of lifecycle transitions, accumulating memory events. -/
inductive CPath : CState → List MemEvent → CState → Prop
  | refl (s : CState) : CPath s [] s
  | step {s t u : CState} {e es : List MemEvent} :
      CStep s e t → CPath t es u → CPath s (e ++ es) u

/-- Whether the raw function pointer can be exposed in a given state.
Modelled from the spec: exposing the raw pointer is only possible from
Active (missing middle module). -/
def canExposePtr : CState → Bool
  | CState.Active => true
  | _ => false

/-- A pool of closures built from one Call Interface: each closure id
indexes its own captured state, recorded alongside its own trampoline.
Invoking closure `i` runs that closure's callable against that closure's
captured state only.  Modelled from the spec: the Managed Assembly Layer
"records the callable alongside" each closure (missing middle module). -/
def invokeIn {σ : Type} (run : σ → ValueCell → σ × Nat) (pool : List σ)
    (i : Nat) (arg : ValueCell) : List σ × Option Nat :=
  match pool[i]? with
  | none => (pool, none)
  | some s => (pool.set i (run s arg).1, some (run s arg).2)

/-- A module: a list of named items, each item an abstract id. -/
structure RsModule where
  items : List (String × Nat)

/-- Name resolution in a module. -/
def resolveItem (m : RsModule) (n : String) : Option Nat :=
  (m.items.find? (fun p => p.1 == n)).map (fun p => p.2)

/-- The raw module of the crate root: `pub mod raw { pub use libffi_sys::*; }`
(src/src/lib.rs lines 102-104), a glob re-export introducing every public
item of the libffi-sys crate unchanged, with no wrapping or
transformation. -/
def rawModule (libffi_sys : RsModule) : RsModule :=
  ⟨libffi_sys.items⟩

/-! ## Helper lemmas -/

theorem fromBytes_toBytes : ∀ (w n : Nat), fromBytes (toBytes n w) = n % 256 ^ w := by
  intro w
  induction w with
  | zero => intro n; simp [toBytes, fromBytes, Nat.mod_one]
  | succ w ih =>
    intro n
    simp only [toBytes, fromBytes, ih]
    rw [pow_succ', Nat.mod_mul]

theorem toBytes_length : ∀ (w n : Nat), (toBytes n w).length = w := by
  intro w
  induction w with
  | zero => intro n; rfl
  | succ w ih => intro n; simp [toBytes, ih]

theorem pow256_8 : (256 : Nat) ^ 8 = 2 ^ 64 := by norm_num

theorem tdMarshal_roundtrip (d : TypeDesc) (bits : Nat) (h : bits < 256 ^ tdWidth d) :
    tdUnmarshal d (tdMarshal d bits) = bits := by
  unfold tdUnmarshal tdMarshal
  rw [List.take_of_length_le (le_of_eq (toBytes_length (tdWidth d) bits)),
    fromBytes_toBytes, Nat.mod_eq_of_lt h]

theorem zipWith_unmarshal_marshal :
    ∀ (ds : List TypeDesc) (vals : List Nat),
      (∀ p ∈ List.zip ds vals, p.2 < 256 ^ tdWidth p.1) →
      List.zipWith tdUnmarshal ds (List.zipWith tdMarshal ds vals)
        = vals.take ds.length := by
  intro ds
  induction ds with
  | nil => intro vals h; simp
  | cons d ds ih =>
    intro vals h
    cases vals with
    | nil => simp
    | cons v vs =>
      have h1 : tdUnmarshal d (tdMarshal d v) = v :=
        tdMarshal_roundtrip d v (h (d, v) (by simp))
      have h2 := ih vs (fun p hp => h p (by simp [hp]))
      simp [h1, h2]

theorem cpath_from_released (es : List MemEvent) (u : CState)
    (h : CPath CState.Released es u) : es = [] ∧ u = CState.Released := by
  cases h with
  | refl => exact ⟨rfl, rfl⟩
  | step hs hp => cases hs

theorem cpath_active_released (es : List MemEvent)
    (h : CPath CState.Active es CState.Released) : es = [MemEvent.free] := by
  cases h with
  | step hs hp =>
    cases hs
    have := cpath_from_released _ _ hp
    simp [this.1]

theorem cpath_built_released (es : List MemEvent)
    (h : CPath CState.Built es CState.Released) :
    es = [MemEvent.alloc, MemEvent.free] := by
  cases h with
  | step hs hp =>
    cases hs
    have := cpath_active_released _ hp
    simp [this]

theorem cpath_unbuilt_released (es : List MemEvent)
    (h : CPath CState.Unbuilt es CState.Released) :
    es = [MemEvent.alloc, MemEvent.free] := by
  cases h with
  | step hs hp =>
    cases hs
    exact cpath_built_released _ hp

/-! ## Claim theorems -/

/-- C1: for every managed callable and every call signature (the argument
descriptors and return descriptor recorded in the closure's Call
Interface), a Closure built from them, when its exposed code pointer is
invoked through an independent call path using the same signature — one
argument value fitting each argument descriptor, the result fitting the
return descriptor — yields the same result as calling the callable
directly in managed code. -/
theorem closure_code_ptr_agrees (c : Closure) (vals : List Nat)
    (hlen : vals.length = c.iface.sig.args.length)
    (hv : ∀ p ∈ List.zip c.iface.sig.args vals, p.2 < 256 ^ tdWidth p.1)
    (hf : c.f vals < 256 ^ tdWidth c.iface.sig.ret) :
    codePtrCall c vals = c.f vals := by
  unfold codePtrCall invoke dispatch
  rw [zipWith_unmarshal_marshal c.iface.sig.args vals hv,
    List.take_of_length_le (le_of_eq hlen),
    tdMarshal_roundtrip _ _ hf]

/-- C1 witness: the crate root's example — the two-argument
(uint64, uint64) to uint64 signature with the callable adding the captured
value 5 to its two arguments, invoked through the exposed pointer with
(6, 7), returns 18. -/
theorem closure_code_ptr_agrees_witness :
    codePtrCall ⟨⟨u64PairSig⟩, fun vals => (5 + vals.getD 0 0 + vals.getD 1 0) % 2 ^ 64⟩
      [6, 7] = 18 := by
  have h := closure_code_ptr_agrees
    ⟨⟨u64PairSig⟩, fun vals => (5 + vals.getD 0 0 + vals.getD 1 0) % 2 ^ 64⟩
    [6, 7] (by rfl) (by decide) (by decide)
  exact h.trans (by rfl)

/-- C2: preparing a Call Interface fails exactly when the descriptor
catalog rejects the signature; an ABI tag unsupported on this platform
yields the UnsupportedSignature error (never a crash, since prepare is
total); and the error is surfaced at construction time only — invocation
through a successfully prepared interface never produces it. -/
theorem prepare_unsupported_signature (cat : Catalog) (sig : Signature) :
    ((∃ ci, prepare cat sig = Except.ok ci) ↔ rejects cat sig = false)
  ∧ (rejects cat sig = true → prepare cat sig = Except.error FfiError.UnsupportedSignature)
  ∧ (cat.abiSupported sig.abi = false →
      prepare cat sig = Except.error FfiError.UnsupportedSignature)
  ∧ (∀ ci, prepare cat sig = Except.ok ci →
      ∀ fn args, invoke ci fn args = fn args) := by
  refine ⟨⟨fun h => ?_, fun h => ?_⟩, fun h => ?_, fun h => ?_, fun ci _ fn args => rfl⟩
  · obtain ⟨ci, hci⟩ := h
    by_cases hr : rejects cat sig
    · simp [prepare, hr] at hci
    · simpa using hr
  · exact ⟨⟨sig⟩, by simp [prepare, h]⟩
  · simp [prepare, h]
  · have hr : rejects cat sig = true := by simp [rejects, h]
    simp [prepare, hr]

/-- C2 witness: on a platform supporting only ABI tag 0, a signature with
ABI tag 1 fails to prepare with UnsupportedSignature. -/
theorem prepare_unsupported_signature_witness :
    prepare ⟨fun a => a == 0⟩
      ⟨[TypeDesc.prim PrimDesc.uint64], TypeDesc.prim PrimDesc.uint64, 1⟩
      = Except.error FfiError.UnsupportedSignature :=
  (prepare_unsupported_signature _ _).2.2.1 (by decide)

/-- C3: for every supported primitive type descriptor and every host value
of that type (a bit pattern fitting the descriptor's width), marshalling
the value into a Value Cell and unmarshalling it back yields the value
bit-for-bit (for pointers, the address) — a round-trip identity. -/
theorem marshal_unmarshal_roundtrip (d : PrimDesc) (bits : Nat)
    (h : bits < 256 ^ byteWidth d) :
    unmarshal d (marshal d bits) = bits := by
  unfold unmarshal marshal
  rw [List.take_of_length_le (le_of_eq (toBytes_length (byteWidth d) bits)),
    fromBytes_toBytes, Nat.mod_eq_of_lt h]

/-- C3 witness: a u64 host value round-trips through a Value Cell. -/
theorem marshal_unmarshal_roundtrip_witness :
    unmarshal PrimDesc.uint64 (marshal PrimDesc.uint64 18) = 18 :=
  marshal_unmarshal_roundtrip PrimDesc.uint64 18 (by norm_num [byteWidth])

/-- C4: for every successfully compiled Call Interface, invoking through
it a function that returns one of its arguments unchanged returns that
argument unchanged. -/
theorem invoke_identity_projection (cat : Catalog) (sig : Signature)
    (ci : CallInterface) (hci : prepare cat sig = Except.ok ci)
    (i : Nat) (args : List ValueCell) (h : i < args.length) :
    invoke ci (projFn i) args = args.get ⟨i, h⟩ := by
  simp [invoke, projFn, List.getD_eq_getElem?_getD, List.getElem?_eq_getElem h]

/-- C4 witness: through the compiled two-argument u64 interface, the
function returning its second argument returns it unchanged. -/
theorem invoke_identity_projection_witness :
    invoke ⟨u64PairSig⟩ (projFn 1) [[1], [2]] = [2] := by
  have h := invoke_identity_projection ⟨fun _ => true⟩ u64PairSig ⟨u64PairSig⟩
    (by rfl) 1 [[1], [2]] (by norm_num)
  exact h.trans (by rfl)

/-- C5: a closure capturing mutable state, invoked N times through its raw
exposed pointer (sequentially, each call blocking the caller), produces
the same cumulative mutation of the captured state as invoking the
managed callable directly N times. -/
theorem raw_pointer_iteration_agrees {σ : Type} (f : MutCallable σ) (s : σ)
    (ys : List Nat) (h : ∀ y ∈ ys, y < 2 ^ 64) :
    trampRunN f s ys = directRunN f s ys := by
  induction ys generalizing s with
  | nil => rfl
  | cons y ys ih =>
    have hy : fromBytes (toBytes y 8) = y := by
      rw [fromBytes_toBytes, pow256_8]
      exact Nat.mod_eq_of_lt (h y (List.mem_cons_self _ _))
    simp only [trampRunN, directRunN, List.foldl_cons, trampCall, hy]
    exact ih _ (fun z hz => h z (List.mem_cons_of_mem _ hz))

/-- C5 witness: a running-sum callable invoked twice through the raw
pointer accumulates the same state as two direct invocations. -/
theorem raw_pointer_iteration_agrees_witness :
    trampRunN ⟨fun t y => (t + y, t + y)⟩ 0 [6, 7]
      = directRunN ⟨fun t y => (t + y, t + y)⟩ 0 [6, 7] :=
  raw_pointer_iteration_agrees ⟨fun t y => (t + y, t + y)⟩ 0 [6, 7] (by decide)

/-- C6: every complete lifecycle of a Closure (from Unbuilt to Released)
frees the trampoline's executable memory exactly once, and allocations
balance frees — no double release and no leak. -/
theorem trampoline_released_exactly_once (es : List MemEvent)
    (h : CPath CState.Unbuilt es CState.Released) :
    List.count MemEvent.free es = 1
  ∧ List.count MemEvent.alloc es = List.count MemEvent.free es := by
  rw [cpath_unbuilt_released es h]
  exact ⟨by decide, by decide⟩

/-- C6 witness: the full lifecycle path allocates once and frees once. -/
theorem trampoline_released_exactly_once_witness :
    List.count MemEvent.free [MemEvent.alloc, MemEvent.free] = 1
  ∧ List.count MemEvent.alloc [MemEvent.alloc, MemEvent.free]
      = List.count MemEvent.free [MemEvent.alloc, MemEvent.free] :=
  trampoline_released_exactly_once [MemEvent.alloc, MemEvent.free]
    (CPath.step CStep.build (CPath.step CStep.activate
      (CPath.step CStep.release (CPath.refl _))))

/-- C7: the Closure state machine is Unbuilt to Built to Active to
Released: there is no transition from Active back to Unbuilt, Released is
terminal, the raw function pointer can be exposed only in the Active
state, and the only state from which Released can be entered is Active. -/
theorem closure_state_machine :
    (∀ e, ¬ CStep CState.Active e CState.Unbuilt)
  ∧ (∀ e t, ¬ CStep CState.Released e t)
  ∧ (∀ s, canExposePtr s = true ↔ s = CState.Active)
  ∧ (∀ s e, CStep s e CState.Released → s = CState.Active) := by
  refine ⟨fun e h => ?_, fun e t h => ?_, fun s => ?_, fun s e h => ?_⟩
  · cases h
  · cases h
  · cases s <;> simp [canExposePtr]
  · cases h; rfl

/-- C7 witness: the release transition does run from Active, and no
transition leaves Released. -/
theorem closure_state_machine_witness :
    CState.Active = CState.Active ∧ ¬ CStep CState.Released [] CState.Built :=
  ⟨closure_state_machine.2.2.2 CState.Active [MemEvent.free] CStep.release,
   closure_state_machine.2.1 [] CState.Built⟩

/-- C8: for closures built from the same Call Interface, invoking one
never alters the other's captured state, and its result depends only on
its own captured state — it never observes the other closure's captured
callable state (two-run noninterference). -/
theorem closures_noninterfere {σ : Type} (run : σ → ValueCell → σ × Nat)
    (pool pool2 : List σ) (i j : Nat) (arg : ValueCell)
    (hij : i ≠ j) (hsame : pool[i]? = pool2[i]?) :
    ((invokeIn run pool i arg).1)[j]? = pool[j]?
  ∧ (invokeIn run pool i arg).2 = (invokeIn run pool2 i arg).2 := by
  constructor
  · unfold invokeIn
    cases hp : pool[i]? with
    | none => simp
    | some s => simp [List.getElem?_set_ne hij]
  · unfold invokeIn
    rw [← hsame]
    cases hp : pool[i]? <;> simp

/-- C8 witness: in a pool of two closures with captured states 10 and 20,
invoking the first leaves the second's state untouched, and the first's
result is the same when the second closure's state differs. -/
theorem closures_noninterfere_witness :
    ((invokeIn (fun s _ => (s + 1, s)) [10, 20] 0 []).1)[1]? = some 20
  ∧ (invokeIn (fun s _ => (s + 1, s)) [10, 20] 0 []).2
      = (invokeIn (fun s _ => (s + 1, s)) [10, 99] 0 []).2 := by
  have h := closures_noninterfere (fun s _ => (s + 1, s)) [10, 20] [10, 99]
    0 1 [] (by decide) (by rfl)
  exact ⟨h.1.trans (by rfl), h.2⟩

/-- C10: the raw module is a glob re-export of the libffi-sys crate: every
item of libffi-sys is reachable through raw under the same name and is the
very same item, with no wrapping or transformation. -/
theorem raw_reexports_libffi_sys (sys : RsModule) (n : String) :
    resolveItem (rawModule sys) n = resolveItem sys n :=
  rfl

end LibFFI
